import Mathlib

/-!
# Verification of the `bevy-debug-camera` movement systems

A shallow embedding of `src/systems.rs` and `src/resources.rs` of the
`bevy-debug-camera` crate.  `f32` arithmetic is idealised as `ℝ`; the
`glam` vector/quaternion operations used by the source (`Vec3::cross`,
`Vec3::normalize`, `Mat3::from_cols` applied to a vector,
`Quat::from_axis_angle` and quaternion–vector rotation) are embedded by
their defining formulas.  Discrete bookkeeping (gamepad connection
tracking, cursor grabbing) is embedded computably.
-/

set_option maxHeartbeats 1000000

noncomputable section

open Real

/-! ## The `glam` math layer (`Vec2`, `Vec3`, quaternions) -/

/-- Embedding of `glam::Vec2` with `f32` idealised as `ℝ`. -/
@[ext] structure Vec2 where
  x : ℝ
  y : ℝ

instance : Zero Vec2 := ⟨⟨0, 0⟩⟩
instance : Sub Vec2 := ⟨fun a b => ⟨a.x - b.x, a.y - b.y⟩⟩

@[simp] lemma Vec2.v2_zero_x : (0 : Vec2).x = 0 := rfl
@[simp] lemma Vec2.v2_zero_y : (0 : Vec2).y = 0 := rfl
@[simp] lemma Vec2.v2_sub_x (a b : Vec2) : (a - b).x = a.x - b.x := rfl
@[simp] lemma Vec2.v2_sub_y (a b : Vec2) : (a - b).y = a.y - b.y := rfl

/-- Embedding of `glam::Vec3` with `f32` idealised as `ℝ`. -/
@[ext] structure Vec3 where
  x : ℝ
  y : ℝ
  z : ℝ

instance : Zero Vec3 := ⟨⟨0, 0, 0⟩⟩
instance : Add Vec3 := ⟨fun a b => ⟨a.x + b.x, a.y + b.y, a.z + b.z⟩⟩
instance : Sub Vec3 := ⟨fun a b => ⟨a.x - b.x, a.y - b.y, a.z - b.z⟩⟩
instance : Neg Vec3 := ⟨fun a => ⟨-a.x, -a.y, -a.z⟩⟩
instance : SMul ℝ Vec3 := ⟨fun r a => ⟨r * a.x, r * a.y, r * a.z⟩⟩

@[simp] lemma Vec3.zero_x : (0 : Vec3).x = 0 := rfl
@[simp] lemma Vec3.zero_y : (0 : Vec3).y = 0 := rfl
@[simp] lemma Vec3.zero_z : (0 : Vec3).z = 0 := rfl
@[simp] lemma Vec3.add_x (a b : Vec3) : (a + b).x = a.x + b.x := rfl
@[simp] lemma Vec3.add_y (a b : Vec3) : (a + b).y = a.y + b.y := rfl
@[simp] lemma Vec3.add_z (a b : Vec3) : (a + b).z = a.z + b.z := rfl
@[simp] lemma Vec3.sub_x (a b : Vec3) : (a - b).x = a.x - b.x := rfl
@[simp] lemma Vec3.sub_y (a b : Vec3) : (a - b).y = a.y - b.y := rfl
@[simp] lemma Vec3.sub_z (a b : Vec3) : (a - b).z = a.z - b.z := rfl
@[simp] lemma Vec3.smul_x (r : ℝ) (a : Vec3) : (r • a).x = r * a.x := rfl
@[simp] lemma Vec3.smul_y (r : ℝ) (a : Vec3) : (r • a).y = r * a.y := rfl
@[simp] lemma Vec3.smul_z (r : ℝ) (a : Vec3) : (r • a).z = r * a.z := rfl

/-- `glam` dot product of two `Vec3`. -/
def Vec3.dot (a b : Vec3) : ℝ := a.x * b.x + a.y * b.y + a.z * b.z

/-- `glam` cross product of two `Vec3`. -/
def Vec3.cross (a b : Vec3) : Vec3 :=
  ⟨a.y * b.z - a.z * b.y, a.z * b.x - a.x * b.z, a.x * b.y - a.y * b.x⟩

/-- `glam` normalisation: `self * self.length().recip()` where
`length = sqrt (dot self self)`. -/
def Vec3.normalize (v : Vec3) : Vec3 := (Real.sqrt (v.dot v))⁻¹ • v

/-- Multiplication of a `glam::Mat3` built by `Mat3::from_cols (f, u, r)`
with a vector: the linear combination of the columns. -/
def basisMul (f u r v : Vec3) : Vec3 := v.x • f + v.y • u + v.z • r

/-- Embedding of `glam::Quat`: vector part and scalar part. -/
structure Quat where
  xyz : Vec3
  w : ℝ

/-- `glam`'s `Quat::from_axis_angle`: `(s, c) = sin_cos(angle * 0.5)`,
vector part `axis * s`, scalar part `c` (axis assumed unit length). -/
def quatFromAxisAngle (axis : Vec3) (angle : ℝ) : Quat :=
  ⟨Real.sin (angle / 2) • axis, Real.cos (angle / 2)⟩

/-- `glam`'s quaternion–vector rotation `q * v` (`Quat::mul_vec3`):
`v * (w*w - b.dot b) + b * (v.dot b * 2) + b.cross v * (w * 2)` where
`b` is the vector part of `q`. -/
def Quat.mulVec3 (q : Quat) (v : Vec3) : Vec3 :=
  (q.w * q.w - q.xyz.dot q.xyz) • v + (2 * v.dot q.xyz) • q.xyz +
    (2 * q.w) • q.xyz.cross v

/-! ## Data model (`src/resources.rs`)

Host identifier types (`KeyCode`, `GamepadAxisType`, `GamepadButtonType`,
`Gamepad`) are opaque ids supplied by the host engine; they are embedded
as natural numbers. -/

abbrev KeyCode := ℕ
abbrev GamepadAxisType := ℕ
abbrev GamepadButtonType := ℕ
abbrev Gamepad := ℕ

/-- `DebugCameraActive` resource: which input schemes are live, plus the
axis-inversion options. -/
structure DebugCameraActive where
  keymouse : Bool
  gamepad : Bool
  invert_x : Bool
  invert_y : Bool

/-- The `Default` impl of `DebugCameraActive`. -/
def DebugCameraActive.default : DebugCameraActive :=
  { keymouse := true, gamepad := true, invert_x := false, invert_y := false }

/-- `KeyboardBindings` resource: eight logical channels, each bound to a
physical key. -/
structure KeyboardBindings where
  fwd : KeyCode
  bwd : KeyCode
  up : KeyCode
  down : KeyCode
  left : KeyCode
  right : KeyCode
  roll_left : KeyCode
  roll_right : KeyCode

/-- The tagged `GamepadInput` enum from `resources.rs`. -/
inductive GamepadInput where
  | Axis (axis : GamepadAxisType)
  | Button (button : GamepadButtonType)
  | Trigger (button : GamepadButtonType)

/-- `GamepadBindings` resource: twelve logical channels, each bound to a
`GamepadInput` source. -/
structure GamepadBindings where
  fwd : GamepadInput
  bwd : GamepadInput
  up : GamepadInput
  down : GamepadInput
  left : GamepadInput
  right : GamepadInput
  roll_left : GamepadInput
  roll_right : GamepadInput
  yaw_left : GamepadInput
  yaw_right : GamepadInput
  pitch_up : GamepadInput
  pitch_down : GamepadInput

/-- Modelled from the spec: the `DebugCamera` component lives in
`components.rs`, which is not among the provided sources.  Its fields and
their types are fixed by §3 of the spec (`fwd: Vec3`, `up: Vec3`,
`position: Vec3`, `speed_translate: f32`, `speed_rotate: f32`) and agree
with every field access in `systems.rs`. -/
structure DebugCamera where
  fwd : Vec3
  up : Vec3
  position : Vec3
  speed_translate : ℝ
  speed_rotate : ℝ

/-! ## Input abstraction (`input_value`, `systems.rs` lines 238–266) -/

/-- Rust's `f32::signum` on non-NaN values: `1.0` if the value is
positive or (positive) zero, `-1.0` if negative.  (`ℝ` has no `-0.0` or
NaN, which is the only divergence from `f32`.) -/
def signum (x : ℝ) : ℝ := if x < 0 then -1 else 1

/-- The per-frame device state read by `camera_movement_system`:
elapsed seconds, key-pressed queries, the frame's mouse-motion events,
gamepad axis/button/button-axis queries, and the `ActiveGamepad`
resource contents. -/
structure FrameInputs where
  delta : ℝ
  keys : KeyCode → Bool
  mouse_motions : List Vec2
  axes : Gamepad × GamepadAxisType → Option ℝ
  buttons : Gamepad × GamepadButtonType → Bool
  button_axes : Gamepad × GamepadButtonType → Option ℝ
  active_gamepad : Option Gamepad

/-- `input_value` from `systems.rs`: resolve one bound gamepad input
source and a desired direction into a scalar contribution. -/
def input_value (gamepad : Gamepad)
    (axes : Gamepad × GamepadAxisType → Option ℝ)
    (buttons : Gamepad × GamepadButtonType → Bool)
    (button_axes : Gamepad × GamepadButtonType → Option ℝ)
    (input : GamepadInput) (dir : ℝ) : ℝ :=
  match input with
  | .Axis axis =>
      match axes (gamepad, axis) with
      | some v => if signum v = signum dir then v else 0
      | none => 0
  | .Button button =>
      if buttons (gamepad, button) then signum dir else 0
  | .Trigger button =>
      match button_axes (gamepad, button) with
      | some v => v * signum dir
      | none => 0

/-- `buttons_to_dir` from `systems.rs`: `i8` conversions of the two
booleans, subtracted, then converted into the target numeric type. -/
def buttons_to_dir (positive negative : Bool) : ℝ :=
  (if positive then 1 else 0) - (if negative then 1 else 0)

/-- The `invert` helper from `systems.rs`. -/
def invert (v : ℝ) (b : Bool) : ℝ := if b then -v else v

/-! ## Motion intent accumulation
(`camera_movement_system`, `systems.rs` lines 42–102) -/

/-- The accumulation of `local_translate_vec` and `rotate_vec` in
`camera_movement_system` (lines 42–102): gamepad contribution first (if
the gamepad scheme is active and an active gamepad exists), then the
keyboard+mouse contribution (if the keymouse scheme is active), both
scaled by the elapsed frame time, the keymouse part additionally by
`0.5`.  Returns `(local_translate_vec, rotate_vec)`. -/
def intents (active : DebugCameraActive) (kb : KeyboardBindings)
    (gb : GamepadBindings) (inp : FrameInputs) : Vec3 × Vec3 :=
  let acc0 : Vec3 × Vec3 := (0, 0)
  let acc1 : Vec3 × Vec3 :=
    if active.gamepad then
      match inp.active_gamepad with
      | some gamepad =>
          let left := input_value gamepad inp.axes inp.buttons inp.button_axes gb.left (-1)
          let right := input_value gamepad inp.axes inp.buttons inp.button_axes gb.right 1
          let fwd := input_value gamepad inp.axes inp.buttons inp.button_axes gb.fwd 1
          let bwd := input_value gamepad inp.axes inp.buttons inp.button_axes gb.bwd (-1)
          let up := input_value gamepad inp.axes inp.buttons inp.button_axes gb.up 1
          let down := input_value gamepad inp.axes inp.buttons inp.button_axes gb.down (-1)
          let yaw_left := input_value gamepad inp.axes inp.buttons inp.button_axes gb.yaw_left (-1)
          let yaw_right := input_value gamepad inp.axes inp.buttons inp.button_axes gb.yaw_right 1
          let pitch_up := input_value gamepad inp.axes inp.buttons inp.button_axes gb.pitch_up 1
          let pitch_down := input_value gamepad inp.axes inp.buttons inp.button_axes gb.pitch_down (-1)
          let roll_left := input_value gamepad inp.axes inp.buttons inp.button_axes gb.roll_left (-1)
          let roll_right := input_value gamepad inp.axes inp.buttons inp.button_axes gb.roll_right 1
          (acc0.1 + inp.delta • (⟨fwd + bwd, up + down, left + right⟩ : Vec3),
           acc0.2 + inp.delta •
             (⟨-yaw_left - yaw_right, pitch_up + pitch_down, roll_left + roll_right⟩ : Vec3))
      | none => acc0
    else acc0
  if active.keymouse then
    let key_fwd := inp.keys kb.fwd
    let key_bwd := inp.keys kb.bwd
    let key_up := inp.keys kb.up
    let key_down := inp.keys kb.down
    let key_left := inp.keys kb.left
    let key_right := inp.keys kb.right
    let key_roll_left := inp.keys kb.roll_left
    let key_roll_right := inp.keys kb.roll_right
    let mouse_delta := inp.mouse_motions.foldl (fun d ev => d - ev) (0 : Vec2)
    (acc1.1 + (inp.delta * 0.5) •
       (⟨buttons_to_dir key_fwd key_bwd, buttons_to_dir key_up key_down,
         buttons_to_dir key_right key_left⟩ : Vec3),
     acc1.2 + (inp.delta * 0.5) •
       (⟨mouse_delta.x, mouse_delta.y,
         buttons_to_dir key_roll_right key_roll_left⟩ : Vec3))
  else acc1

/-! ## Camera frame integration
(`camera_movement_system` loop body, `systems.rs` lines 104–148) -/

/-- The basis correction at the top of the per-camera loop (lines
107–112): `right = fwd × up`; `up = right × fwd`; `fwd = up × right`;
normalize `up` and `fwd`.  Returns the corrected `(fwd, up)` pair. -/
def orthonormalize (fwd up : Vec3) : Vec3 × Vec3 :=
  let right := fwd.cross up
  let up1 := right.cross fwd
  let fwd1 := up1.cross right
  (fwd1.normalize, up1.normalize)

/-- One per-camera integration step of `camera_movement_system` (lines
104–148): basis correction, translation along the corrected basis, then
the three sequential axis-angle rotations (x about `up`, y about the
just-rotated `right`, z about the just-rotated `fwd`). -/
def integrate (active : DebugCameraActive) (tv rv : Vec3)
    (cam : DebugCamera) : DebugCamera :=
  let fu := orthonormalize cam.fwd cam.up
  let fwd2 := fu.1
  let up2 := fu.2
  let right2 := fwd2.cross up2
  let position2 := cam.position + cam.speed_translate • basisMul fwd2 up2 right2 tv
  let x_rot := invert rv.x active.invert_x
  let xq := quatFromAxisAngle up2 (x_rot * cam.speed_rotate)
  let fwd3 := xq.mulVec3 fwd2
  let right3 := xq.mulVec3 right2
  let y_rot := invert rv.y active.invert_y
  let yq := quatFromAxisAngle right3 (y_rot * cam.speed_rotate)
  let fwd4 := yq.mulVec3 fwd3
  let up4 := yq.mulVec3 up2
  let zq := quatFromAxisAngle fwd4 (rv.z * cam.speed_rotate)
  let up5 := zq.mulVec3 up4
  { fwd := fwd4, up := up5, position := position2,
    speed_translate := cam.speed_translate, speed_rotate := cam.speed_rotate }

/-- `camera_movement_system`: early return when neither scheme is
active; otherwise accumulate the intents once and apply the integration
step to every `DebugCamera` in the query. -/
def camera_movement_system (active : DebugCameraActive)
    (kb : KeyboardBindings) (gb : GamepadBindings) (inp : FrameInputs)
    (q : List DebugCamera) : List DebugCamera :=
  if ¬(active.gamepad ∨ active.keymouse) then q
  else
    let tvrv := intents active kb gb inp
    q.map (integrate active tvrv.1 tvrv.2)

/-! ## Transform publishing (`camera_update_system`, lines 155–167)

`Transform::from_translation(..).looking_at(..)` is host-engine (bevy)
code, outside this repository; the system is therefore parametrised by
the host's transform type and by that construction, applied to exactly
the three arguments the source passes: the camera position, the look-at
target `position + fwd`, and the up reference. -/

/-- `camera_update_system`: when either scheme is active, overwrite each
camera's transform with the look-at transform derived from its
`DebugCamera` state; otherwise leave every transform untouched. -/
def camera_update_system {Transform : Type}
    (from_translation_looking_at : Vec3 → Vec3 → Vec3 → Transform)
    (active : DebugCameraActive)
    (q : List (Transform × DebugCamera)) : List (Transform × DebugCamera) :=
  if active.gamepad ∨ active.keymouse then
    q.map (fun tc =>
      (from_translation_looking_at tc.2.position (tc.2.position + tc.2.fwd) tc.2.up,
       tc.2))
  else q

end

/-! ## Cursor grabbing (`cursor_grab_system`, lines 171–184) -/

/-- Embedding of `bevy::window::CursorGrabMode`. -/
inductive CursorGrabMode where
  | None
  | Confined
  | Locked
deriving DecidableEq

/-- The cursor state of the primary window. -/
structure Cursor where
  visible : Bool
  grab_mode : CursorGrabMode
deriving DecidableEq

/-- The primary window, as far as `cursor_grab_system` touches it. -/
structure Window where
  cursor : Cursor
deriving DecidableEq

/-- `cursor_grab_system` acting on the primary window (the source skips
silently when the single-window query fails; on a present window it
toggles visibility only when the observed visibility equals the
`keymouse` flag, deriving the grab mode from the new visibility). -/
def cursor_grab_system (keymouse : Bool) (w : Window) : Window :=
  if w.cursor.visible = keymouse then
    let visible := !w.cursor.visible
    { cursor := { visible := visible,
                  grab_mode := if visible then CursorGrabMode.None
                               else CursorGrabMode.Locked } }
  else w

/-! ## Gamepad connection tracking (`gamepad_connections`, lines 188–236) -/

/-- Embedding of `bevy`'s `GamepadConnection` event payload. -/
inductive GamepadConnection where
  | Connected (name : String)
  | Disconnected

/-- Embedding of `bevy`'s `GamepadEvent`: connection events carry the
gamepad id and payload; all other variants are ignored by the system. -/
inductive GamepadEvent where
  | Connection (gamepad : Gamepad) (connection : GamepadConnection)
  | Other

/-- The part of `bevy`'s `GamepadSettings` the system writes: the default
axis deadzone bounds.  `f32` constants are idealised as `ℚ` here since
this subsystem is purely discrete. -/
structure GamepadSettings where
  deadzone_lowerbound : ℚ
  deadzone_upperbound : ℚ
deriving DecidableEq

/-- Processing of a single `GamepadEvent` by `gamepad_connections`: the
state is the `ActiveGamepad` resource contents paired with the gamepad
settings. -/
def gamepad_connections_step (st : Option Gamepad × GamepadSettings)
    (ev : GamepadEvent) : Option Gamepad × GamepadSettings :=
  match ev with
  | .Connection id conn =>
      match conn with
      | .Connected _ =>
          if st.1.isNone then
            (some id, { deadzone_lowerbound := -1/10, deadzone_upperbound := 1/10 })
          else st
      | .Disconnected =>
          if st.1 = some id then (none, st.2) else st
  | .Other => st

/-- `gamepad_connections`: fold the frame's gamepad event stream over the
single-event step. -/
def gamepad_connections (st : Option Gamepad × GamepadSettings)
    (evs : List GamepadEvent) : Option Gamepad × GamepadSettings :=
  evs.foldl gamepad_connections_step st

/-! ## Concrete fixtures used to instantiate the theorems -/

/-- A keyboard binding table with eight distinct key ids. -/
def kb0 : KeyboardBindings := ⟨0, 1, 2, 3, 4, 5, 6, 7⟩

/-- A gamepad binding table shaped like the crate's default bindings
(sticks on shared axes, triggers for up/down, buttons for roll). -/
def gb0 : GamepadBindings :=
  ⟨.Axis 0, .Axis 0, .Trigger 0, .Trigger 1, .Axis 1, .Axis 1,
   .Button 0, .Button 1, .Axis 2, .Axis 2, .Axis 3, .Axis 3⟩

/-- A frame with zero elapsed time and no device activity. -/
noncomputable def inpZeroDelta : FrameInputs :=
  ⟨0, fun _ => false, [], fun _ => none, fun _ => false, fun _ => none, none⟩

/-- A frame with one second elapsed, an active gamepad with no axis or
button data, and a single horizontal mouse-motion event. -/
noncomputable def inpMouseOnly : FrameInputs :=
  ⟨1, fun _ => false, [⟨1, 0⟩], fun _ => none, fun _ => false,
   fun _ => none, some 0⟩

/-- A camera whose stored basis is orthonormal. -/
noncomputable def cam0 : DebugCamera :=
  ⟨⟨1, 0, 0⟩, ⟨0, 1, 0⟩, ⟨0, 0, 0⟩, 1, 1⟩

/-- A camera whose stored basis is non-degenerate but not orthonormal:
`up` is slanted towards `fwd`. -/
noncomputable def camSkew : DebugCamera :=
  ⟨⟨1, 0, 0⟩, ⟨1, 1, 0⟩, ⟨0, 0, 0⟩, 1, 1⟩

/-! ## Theorems -/

noncomputable section

/-! ### Algebraic facts about the math layer -/

lemma Vec3.dot_comm (a b : Vec3) : a.dot b = b.dot a := by
  simp only [Vec3.dot]; ring

/-- Lagrange identity for the cross product. -/
lemma Vec3.dot_cross_cross (a b : Vec3) :
    (a.cross b).dot (a.cross b) = a.dot a * b.dot b - a.dot b ^ 2 := by
  simp only [Vec3.dot, Vec3.cross]; ring

/-- A cross product is perpendicular to its first factor. -/
lemma Vec3.dot_cross_left (a b : Vec3) : (a.cross b).dot a = 0 := by
  simp only [Vec3.dot, Vec3.cross]; ring

/-- A cross product is perpendicular to its second factor. -/
lemma Vec3.dot_cross_right (a b : Vec3) : (a.cross b).dot b = 0 := by
  simp only [Vec3.dot, Vec3.cross]; ring

lemma Vec3.dot_self_nonneg (v : Vec3) : 0 ≤ v.dot v := by
  simp only [Vec3.dot]
  nlinarith [mul_self_nonneg v.x, mul_self_nonneg v.y, mul_self_nonneg v.z]

lemma Vec3.dot_self_pos {v : Vec3} (h : v ≠ 0) : 0 < v.dot v := by
  rcases lt_or_eq_of_le (Vec3.dot_self_nonneg v) with hlt | heq
  · exact hlt
  · exfalso
    apply h
    obtain ⟨a, b, c⟩ := v
    simp only [Vec3.dot] at heq
    have ha : a = 0 := by nlinarith [sq_nonneg a, sq_nonneg b, sq_nonneg c]
    have hb : b = 0 := by nlinarith [sq_nonneg a, sq_nonneg b, sq_nonneg c]
    have hc : c = 0 := by nlinarith [sq_nonneg a, sq_nonneg b, sq_nonneg c]
    simp only [ha, hb, hc]
    rfl

lemma Vec3.dot_smul_smul (r s : ℝ) (a b : Vec3) :
    (r • a).dot (s • b) = r * s * a.dot b := by
  simp only [Vec3.dot, Vec3.smul_x, Vec3.smul_y, Vec3.smul_z]; ring

/-- Normalising a vector of positive squared length yields a unit vector. -/
lemma Vec3.dot_normalize_self {v : Vec3} (h : 0 < v.dot v) :
    v.normalize.dot v.normalize = 1 := by
  have hs : Real.sqrt (v.dot v) ^ 2 = v.dot v := Real.sq_sqrt h.le
  have hne : Real.sqrt (v.dot v) ≠ 0 := ne_of_gt (Real.sqrt_pos.mpr h)
  simp only [Vec3.normalize, Vec3.dot_smul_smul]
  field_simp

/-- Normalisation preserves perpendicularity. -/
lemma Vec3.dot_normalize_normalize {u v : Vec3} (h : u.dot v = 0) :
    u.normalize.dot v.normalize = 0 := by
  simp only [Vec3.normalize, Vec3.dot_smul_smul, h, mul_zero]

/-- Rotation by a unit quaternion preserves dot products. -/
lemma Quat.dot_mulVec3 (q : Quat) (u v : Vec3)
    (h : q.xyz.dot q.xyz + q.w * q.w = 1) :
    (q.mulVec3 u).dot (q.mulVec3 v) = u.dot v := by
  obtain ⟨⟨p1, p2, p3⟩, w⟩ := q
  simp only [Quat.mulVec3, Vec3.dot, Vec3.cross, Vec3.add_x, Vec3.add_y,
    Vec3.add_z, Vec3.smul_x, Vec3.smul_y, Vec3.smul_z] at h ⊢
  linear_combination
    ((u.x * v.x + u.y * v.y + u.z * v.z) *
      (p1 ^ 2 + p2 ^ 2 + p3 ^ 2 + w ^ 2 + 1)) * h

/-- The quaternion built by `from_axis_angle` from a unit axis is a unit
quaternion. -/
lemma quatFromAxisAngle_unit (a : Vec3) (θ : ℝ) (h : a.dot a = 1) :
    (quatFromAxisAngle a θ).xyz.dot (quatFromAxisAngle a θ).xyz +
      (quatFromAxisAngle a θ).w * (quatFromAxisAngle a θ).w = 1 := by
  have hsc := Real.sin_sq_add_cos_sq (θ / 2)
  simp only [quatFromAxisAngle, Vec3.dot_smul_smul]
  linear_combination Real.sin (θ / 2) ^ 2 * h + hsc

/-- Axis-angle rotation preserves dot products when the axis is unit. -/
lemma dot_rotate_rotate (a : Vec3) (θ : ℝ) (u v : Vec3) (h : a.dot a = 1) :
    ((quatFromAxisAngle a θ).mulVec3 u).dot
      ((quatFromAxisAngle a θ).mulVec3 v) = u.dot v :=
  Quat.dot_mulVec3 _ _ _ (quatFromAxisAngle_unit a θ h)

/-- Axis-angle rotation fixes its (unit) axis. -/
lemma rotate_axis_self (a : Vec3) (θ : ℝ) (h : a.dot a = 1) :
    (quatFromAxisAngle a θ).mulVec3 a = a := by
  have hsc := Real.sin_sq_add_cos_sq (θ / 2)
  obtain ⟨a1, a2, a3⟩ := a
  simp only [Vec3.dot] at h
  ext
  · simp only [quatFromAxisAngle, Quat.mulVec3, Vec3.dot, Vec3.cross,
      Vec3.add_x, Vec3.smul_x, Vec3.smul_y, Vec3.smul_z]
    linear_combination (a1 * Real.sin (θ / 2) ^ 2) * h + a1 * hsc
  · simp only [quatFromAxisAngle, Quat.mulVec3, Vec3.dot, Vec3.cross,
      Vec3.add_y, Vec3.smul_x, Vec3.smul_y, Vec3.smul_z]
    linear_combination (a2 * Real.sin (θ / 2) ^ 2) * h + a2 * hsc
  · simp only [quatFromAxisAngle, Quat.mulVec3, Vec3.dot, Vec3.cross,
      Vec3.add_z, Vec3.smul_x, Vec3.smul_y, Vec3.smul_z]
    linear_combination (a3 * Real.sin (θ / 2) ^ 2) * h + a3 * hsc

/-- Rotation by angle `0` is the identity. -/
lemma rotate_zero (a v : Vec3) : (quatFromAxisAngle a 0).mulVec3 v = v := by
  simp only [quatFromAxisAngle, Quat.mulVec3]
  ext <;> simp [Vec3.dot, Vec3.cross]

@[simp] lemma Vec3.zero_smul_vec (v : Vec3) : (0 : ℝ) • v = 0 := by
  ext <;> simp

@[simp] lemma Vec3.smul_zero_vec (r : ℝ) : r • (0 : Vec3) = 0 := by
  ext <;> simp

@[simp] lemma Vec3.add_zero_vec (v : Vec3) : v + 0 = v := by
  ext <;> simp

@[simp] lemma Vec3.zero_add_vec (v : Vec3) : 0 + v = v := by
  ext <;> simp

/-! ### Facts about the basis correction `orthonormalize` -/

lemma normalize_of_unit {v : Vec3} (h : v.dot v = 1) : v.normalize = v := by
  simp only [Vec3.normalize, h, Real.sqrt_one, inv_one]
  ext <;> simp

lemma cross_left_zero (b : Vec3) : Vec3.cross 0 b = 0 := by
  ext <;> simp [Vec3.cross]

/-- The double cross `(f × u) × f` recovers `u` on an orthonormal pair. -/
lemma cross_cross_left_of_orthonormal {f u : Vec3} (hf : f.dot f = 1)
    (hfu : f.dot u = 0) : (f.cross u).cross f = u := by
  obtain ⟨f1, f2, f3⟩ := f
  obtain ⟨u1, u2, u3⟩ := u
  simp only [Vec3.dot] at hf hfu
  ext
  · simp only [Vec3.cross]
    linear_combination u1 * hf - f1 * hfu
  · simp only [Vec3.cross]
    linear_combination u2 * hf - f2 * hfu
  · simp only [Vec3.cross]
    linear_combination u3 * hf - f3 * hfu

/-- The double cross `u × (f × u)` recovers `f` on an orthonormal pair. -/
lemma cross_cross_right_of_orthonormal {f u : Vec3} (hu : u.dot u = 1)
    (hfu : f.dot u = 0) : u.cross (f.cross u) = f := by
  obtain ⟨f1, f2, f3⟩ := f
  obtain ⟨u1, u2, u3⟩ := u
  simp only [Vec3.dot] at hu hfu
  ext
  · simp only [Vec3.cross]
    linear_combination f1 * hu - u1 * hfu
  · simp only [Vec3.cross]
    linear_combination f2 * hu - u2 * hfu
  · simp only [Vec3.cross]
    linear_combination f3 * hu - u3 * hfu

/-- On an already orthonormal pair the basis correction is the
identity. -/
lemma orthonormalize_fixed {f u : Vec3} (hf : f.dot f = 1)
    (hu : u.dot u = 1) (hfu : f.dot u = 0) : orthonormalize f u = (f, u) := by
  have hup : (f.cross u).cross f = u := cross_cross_left_of_orthonormal hf hfu
  have hfwd : u.cross (f.cross u) = f := cross_cross_right_of_orthonormal hu hfu
  simp only [orthonormalize, hup, hfwd, normalize_of_unit hf, normalize_of_unit hu]

/-- On a non-degenerate pair (cross product nonzero) the basis
correction produces a unit, mutually perpendicular pair. -/
lemma orthonormalize_orthonormal {f u : Vec3} (h : f.cross u ≠ 0) :
    (orthonormalize f u).1.dot (orthonormalize f u).1 = 1 ∧
      (orthonormalize f u).2.dot (orthonormalize f u).2 = 1 ∧
      (orthonormalize f u).1.dot (orthonormalize f u).2 = 0 := by
  have hr : 0 < (f.cross u).dot (f.cross u) := Vec3.dot_self_pos h
  have hfne : f ≠ 0 := by
    intro h0
    exact h (by rw [h0]; exact cross_left_zero u)
  have hfpos : 0 < f.dot f := Vec3.dot_self_pos hfne
  have hup_pos : 0 < ((f.cross u).cross f).dot ((f.cross u).cross f) := by
    rw [Vec3.dot_cross_cross, Vec3.dot_cross_left]
    nlinarith
  have hfwd_pos : 0 < (((f.cross u).cross f).cross (f.cross u)).dot
      (((f.cross u).cross f).cross (f.cross u)) := by
    rw [Vec3.dot_cross_cross, Vec3.dot_cross_left]
    nlinarith
  have hperp : (((f.cross u).cross f).cross (f.cross u)).dot
      ((f.cross u).cross f) = 0 := Vec3.dot_cross_left _ _
  refine ⟨?_, ?_, ?_⟩
  · exact Vec3.dot_normalize_self hfwd_pos
  · exact Vec3.dot_normalize_self hup_pos
  · exact Vec3.dot_normalize_normalize hperp

/-- An orthonormal pair is non-degenerate: its cross product is
nonzero. -/
lemma cross_ne_zero_of_orthonormal {f u : Vec3} (hf : f.dot f = 1)
    (hu : u.dot u = 1) (hfu : f.dot u = 0) : f.cross u ≠ 0 := by
  intro h0
  have hl := Vec3.dot_cross_cross f u
  rw [h0, hf, hu, hfu] at hl
  simp only [Vec3.dot, Vec3.zero_x, Vec3.zero_y, Vec3.zero_z] at hl
  norm_num at hl

/-! ### Facts about the integration step `integrate` -/

/-- The three sequential axis-angle rotations of the integration step
preserve orthonormality of the basis. -/
lemma rotated_orthonormal {F U : Vec3} (θ1 θ2 θ3 : ℝ)
    (hF : F.dot F = 1) (hU : U.dot U = 1) (hFU : F.dot U = 0) :
    let xq := quatFromAxisAngle U θ1
    let F3 := xq.mulVec3 F
    let R3 := xq.mulVec3 (F.cross U)
    let yq := quatFromAxisAngle R3 θ2
    let F4 := yq.mulVec3 F3
    let U4 := yq.mulVec3 U
    let zq := quatFromAxisAngle F4 θ3
    let U5 := zq.mulVec3 U4
    F4.dot F4 = 1 ∧ U5.dot U5 = 1 ∧ F4.dot U5 = 0 := by
  intro xq F3 R3 yq F4 U4 zq U5
  have hR : (F.cross U).dot (F.cross U) = 1 := by
    rw [Vec3.dot_cross_cross, hF, hU, hFU]; ring
  have hF3 : F3.dot F3 = 1 := by
    show ((quatFromAxisAngle U θ1).mulVec3 F).dot _ = 1
    rw [dot_rotate_rotate U θ1 F F hU]; exact hF
  have hR3 : R3.dot R3 = 1 := by
    show ((quatFromAxisAngle U θ1).mulVec3 _).dot _ = 1
    rw [dot_rotate_rotate U θ1 _ _ hU]; exact hR
  have hF3U : F3.dot U = 0 := by
    have h1 : ((quatFromAxisAngle U θ1).mulVec3 F).dot
        ((quatFromAxisAngle U θ1).mulVec3 U) = 0 := by
      rw [dot_rotate_rotate U θ1 F U hU]; exact hFU
    rwa [rotate_axis_self U θ1 hU] at h1
  have hF4 : F4.dot F4 = 1 := by
    show ((quatFromAxisAngle R3 θ2).mulVec3 F3).dot _ = 1
    rw [dot_rotate_rotate R3 θ2 F3 F3 hR3]; exact hF3
  have hU4 : U4.dot U4 = 1 := by
    show ((quatFromAxisAngle R3 θ2).mulVec3 U).dot _ = 1
    rw [dot_rotate_rotate R3 θ2 U U hR3]; exact hU
  have hF4U4 : F4.dot U4 = 0 := by
    show ((quatFromAxisAngle R3 θ2).mulVec3 F3).dot
      ((quatFromAxisAngle R3 θ2).mulVec3 U) = 0
    rw [dot_rotate_rotate R3 θ2 F3 U hR3]; exact hF3U
  have hU5 : U5.dot U5 = 1 := by
    show ((quatFromAxisAngle F4 θ3).mulVec3 U4).dot _ = 1
    rw [dot_rotate_rotate F4 θ3 U4 U4 hF4]; exact hU4
  have hF4U5 : F4.dot U5 = 0 := by
    have h1 : ((quatFromAxisAngle F4 θ3).mulVec3 F4).dot
        ((quatFromAxisAngle F4 θ3).mulVec3 U4) = 0 := by
      rw [dot_rotate_rotate F4 θ3 F4 U4 hF4]; exact hF4U4
    rwa [rotate_axis_self F4 θ3 hF4] at h1
  exact ⟨hF4, hU5, hF4U5⟩

/-- One integration step on a non-degenerate camera leaves `fwd` and
`up` unit-length and mutually perpendicular. -/
lemma integrate_orthonormal (act : DebugCameraActive) (tv rv : Vec3)
    (cam : DebugCamera) (h : cam.fwd.cross cam.up ≠ 0) :
    (integrate act tv rv cam).fwd.dot (integrate act tv rv cam).fwd = 1 ∧
      (integrate act tv rv cam).up.dot (integrate act tv rv cam).up = 1 ∧
      (integrate act tv rv cam).fwd.dot (integrate act tv rv cam).up = 0 := by
  obtain ⟨hF, hU, hFU⟩ := orthonormalize_orthonormal h
  exact rotated_orthonormal (invert rv.x act.invert_x * cam.speed_rotate)
    (invert rv.y act.invert_y * cam.speed_rotate)
    (rv.z * cam.speed_rotate) hF hU hFU

/-- Folding any nonempty sequence of integration steps over a
non-degenerate camera ends with an orthonormal basis. -/
lemma foldl_integrate_orthonormal :
    ∀ (steps : List (DebugCameraActive × Vec3 × Vec3)) (cam : DebugCamera),
      cam.fwd.cross cam.up ≠ 0 → steps ≠ [] →
      (steps.foldl (fun c s => integrate s.1 s.2.1 s.2.2 c) cam).fwd.dot
          (steps.foldl (fun c s => integrate s.1 s.2.1 s.2.2 c) cam).fwd = 1 ∧
        (steps.foldl (fun c s => integrate s.1 s.2.1 s.2.2 c) cam).up.dot
          (steps.foldl (fun c s => integrate s.1 s.2.1 s.2.2 c) cam).up = 1 ∧
        (steps.foldl (fun c s => integrate s.1 s.2.1 s.2.2 c) cam).fwd.dot
          (steps.foldl (fun c s => integrate s.1 s.2.1 s.2.2 c) cam).up = 0 := by
  intro steps
  induction steps with
  | nil => exact fun cam h hne => absurd rfl hne
  | cons s rest ih =>
      intro cam h _
      by_cases hr : rest = []
      · subst hr
        simpa using integrate_orthonormal s.1 s.2.1 s.2.2 cam h
      · obtain ⟨h1, h2, h3⟩ := integrate_orthonormal s.1 s.2.1 s.2.2 cam h
        have hnd := cross_ne_zero_of_orthonormal h1 h2 h3
        simpa using ih (integrate s.1 s.2.1 s.2.2 cam) hnd hr

/-- With zero elapsed time, every contribution to the intent vectors is
scaled away: the accumulated intents are zero whatever the inputs. -/
lemma intents_delta_zero (active : DebugCameraActive)
    (kb : KeyboardBindings) (gb : GamepadBindings) (inp : FrameInputs)
    (h : inp.delta = 0) : intents active kb gb inp = (0, 0) := by
  unfold intents
  rcases hag : inp.active_gamepad with _ | g <;>
    rcases hk : active.keymouse with _ | _ <;>
      rcases hg : active.gamepad with _ | _ <;>
        simp [h, hag, hk, hg]

/-- With zero intents, the integration step on an arbitrary camera
moves nothing and rotates nothing: it only replaces the stored basis by
its re-orthonormalization. -/
lemma integrate_zero_intents (act : DebugCameraActive) (cam : DebugCamera) :
    integrate act 0 0 cam =
      { fwd := (orthonormalize cam.fwd cam.up).1,
        up := (orthonormalize cam.fwd cam.up).2,
        position := cam.position,
        speed_translate := cam.speed_translate,
        speed_rotate := cam.speed_rotate } := by
  simp [integrate, invert, basisMul, rotate_zero]

/-- With zero intents, the integration step is the identity on a camera
whose basis is already orthonormal (only the basis correction acts, and
it is a fixed point there). -/
lemma integrate_id_of_orthonormal (act : DebugCameraActive)
    (c : DebugCamera) (hf : c.fwd.dot c.fwd = 1) (hu : c.up.dot c.up = 1)
    (hfu : c.fwd.dot c.up = 0) : integrate act 0 0 c = c := by
  obtain ⟨f, u, p, st, sr⟩ := c
  have hfix : orthonormalize f u = (f, u) := orthonormalize_fixed hf hu hfu
  simp [integrate, hfix, invert, basisMul, rotate_zero]

/-! ### Claim theorems -/

/-- C1: for every camera whose stored `fwd` and `up` are non-degenerate
(cross product nonzero, i.e. neither zero nor parallel), after each
per-camera integration step of `camera_movement_system` — here an
arbitrary nonempty sequence of integration steps with arbitrary
translation and rotation intents and toggle states — the stored `fwd`
and `up` are unit-length and mutually perpendicular. -/
theorem C1_basis_stays_orthonormal (cam : DebugCamera)
    (steps : List (DebugCameraActive × Vec3 × Vec3))
    (hnd : cam.fwd.cross cam.up ≠ 0) (hne : steps ≠ []) :
    (steps.foldl (fun c s => integrate s.1 s.2.1 s.2.2 c) cam).fwd.dot
        (steps.foldl (fun c s => integrate s.1 s.2.1 s.2.2 c) cam).fwd = 1 ∧
      (steps.foldl (fun c s => integrate s.1 s.2.1 s.2.2 c) cam).up.dot
        (steps.foldl (fun c s => integrate s.1 s.2.1 s.2.2 c) cam).up = 1 ∧
      (steps.foldl (fun c s => integrate s.1 s.2.1 s.2.2 c) cam).fwd.dot
        (steps.foldl (fun c s => integrate s.1 s.2.1 s.2.2 c) cam).up = 0 :=
  foldl_integrate_orthonormal steps cam hnd hne

/-- Closed instance of `C1_basis_stays_orthonormal` at a concrete camera
and a concrete one-step sequence. -/
theorem C1_basis_stays_orthonormal_witness :
    cam0.fwd.cross cam0.up ≠ 0 ∧
      ([(DebugCameraActive.default, (0 : Vec3), (0 : Vec3))] ≠
        ([] : List (DebugCameraActive × Vec3 × Vec3))) ∧
      ((integrate DebugCameraActive.default 0 0 cam0).fwd.dot
          (integrate DebugCameraActive.default 0 0 cam0).fwd = 1 ∧
        (integrate DebugCameraActive.default 0 0 cam0).up.dot
          (integrate DebugCameraActive.default 0 0 cam0).up = 1 ∧
        (integrate DebugCameraActive.default 0 0 cam0).fwd.dot
          (integrate DebugCameraActive.default 0 0 cam0).up = 0) :=
  ⟨by norm_num [cam0, Vec3.cross, Vec3.ext_iff],
   by simp,
   C1_basis_stays_orthonormal cam0 [(DebugCameraActive.default, 0, 0)]
     (by norm_num [cam0, Vec3.cross, Vec3.ext_iff]) (by simp)⟩

/-- C7: the re-orthonormalization step is a fixed point on orthonormal
input — applied to a unit-length, mutually perpendicular pair it returns
the same pair, hence applying it twice equals applying it once. -/
theorem C7_orthonormalize_fixed_point {f u : Vec3} (hf : f.dot f = 1)
    (hu : u.dot u = 1) (hfu : f.dot u = 0) :
    orthonormalize f u = (f, u) ∧
      orthonormalize (orthonormalize f u).1 (orthonormalize f u).2 =
        orthonormalize f u := by
  have h1 := orthonormalize_fixed hf hu hfu
  refine ⟨h1, ?_⟩
  rw [h1]
  exact h1

/-- Closed instance of `C7_orthonormalize_fixed_point` at a concrete
orthonormal pair. -/
theorem C7_orthonormalize_fixed_point_witness :
    (Vec3.mk 1 0 0).dot (Vec3.mk 1 0 0) = 1 ∧
      (Vec3.mk 0 1 0).dot (Vec3.mk 0 1 0) = 1 ∧
      (Vec3.mk 1 0 0).dot (Vec3.mk 0 1 0) = 0 ∧
      (orthonormalize ⟨1, 0, 0⟩ ⟨0, 1, 0⟩ = (⟨1, 0, 0⟩, ⟨0, 1, 0⟩) ∧
        orthonormalize (orthonormalize ⟨1, 0, 0⟩ ⟨0, 1, 0⟩).1
            (orthonormalize ⟨1, 0, 0⟩ ⟨0, 1, 0⟩).2 =
          orthonormalize ⟨1, 0, 0⟩ ⟨0, 1, 0⟩) :=
  ⟨by norm_num [Vec3.dot], by norm_num [Vec3.dot], by norm_num [Vec3.dot],
   C7_orthonormalize_fixed_point (by norm_num [Vec3.dot])
     (by norm_num [Vec3.dot]) (by norm_num [Vec3.dot])⟩

/-- C2: when both the keymouse and gamepad toggles are off, a frame
changes no field of any camera's `DebugCamera` state (whatever the
key, mouse or gamepad input) and writes no camera's host transform. -/
theorem C2_inactive_frame_is_noop {Transform : Type}
    (from_translation_looking_at : Vec3 → Vec3 → Vec3 → Transform)
    (active : DebugCameraActive) (kb : KeyboardBindings)
    (gb : GamepadBindings) (inp : FrameInputs) (cams : List DebugCamera)
    (tq : List (Transform × DebugCamera))
    (hk : active.keymouse = false) (hg : active.gamepad = false) :
    camera_movement_system active kb gb inp cams = cams ∧
      camera_update_system from_translation_looking_at active tq = tq := by
  constructor
  · simp [camera_movement_system, hk, hg]
  · simp [camera_update_system, hk, hg]

/-- Closed instance of `C2_inactive_frame_is_noop` at concrete resources
and a nonempty camera list. -/
theorem C2_inactive_frame_is_noop_witness :
    (DebugCameraActive.mk false false false false).keymouse = false ∧
      (DebugCameraActive.mk false false false false).gamepad = false ∧
      (camera_movement_system (DebugCameraActive.mk false false false false)
          kb0 gb0 inpMouseOnly [cam0] = [cam0] ∧
        camera_update_system (fun p _ _ => p)
          (DebugCameraActive.mk false false false false)
          [((⟨9, 9, 9⟩ : Vec3), cam0)] = [((⟨9, 9, 9⟩ : Vec3), cam0)]) :=
  ⟨rfl, rfl,
   C2_inactive_frame_is_noop (fun p _ _ => p)
     (DebugCameraActive.mk false false false false) kb0 gb0 inpMouseOnly
     [cam0] [((⟨9, 9, 9⟩ : Vec3), cam0)] rfl rfl⟩

/-- C3: the gamepad connection tracker, starting from `Unset` (no active
gamepad): after `connect(A), connect(B)` the active gamepad is `A`
(first connected wins, later connects are ignored); `disconnect(B)`
while `A` is active is a no-op leaving `A` active; a final
`disconnect(A)` yields `Unset`, so the full four-event sequence ends in
`Unset`. -/
theorem C3_connection_state_machine (A B : Gamepad) (nA nB : String)
    (s : GamepadSettings) (hAB : A ≠ B) :
    (gamepad_connections (none, s)
        [.Connection A (.Connected nA), .Connection B (.Connected nB)]).1 =
      some A ∧
      (gamepad_connections (none, s)
          [.Connection A (.Connected nA), .Connection B (.Connected nB),
           .Connection B .Disconnected]).1 = some A ∧
      (gamepad_connections (none, s)
          [.Connection A (.Connected nA), .Connection B (.Connected nB),
           .Connection B .Disconnected, .Connection A .Disconnected]).1 =
        none := by
  simp [gamepad_connections, gamepad_connections_step, hAB]

/-- Closed instance of `C3_connection_state_machine` at concrete ids. -/
theorem C3_connection_state_machine_witness :
    (0 : Gamepad) ≠ 1 ∧
      ((gamepad_connections (none, ⟨0, 0⟩)
          [.Connection 0 (.Connected "pad a"), .Connection 1 (.Connected "pad b")]).1 =
        some 0 ∧
        (gamepad_connections (none, ⟨0, 0⟩)
            [.Connection 0 (.Connected "pad a"), .Connection 1 (.Connected "pad b"),
             .Connection 1 .Disconnected]).1 = some 0 ∧
        (gamepad_connections (none, ⟨0, 0⟩)
            [.Connection 0 (.Connected "pad a"), .Connection 1 (.Connected "pad b"),
             .Connection 1 .Disconnected, .Connection 0 .Disconnected]).1 =
          none) :=
  ⟨by decide,
   C3_connection_state_machine 0 1 "pad a" "pad b" ⟨0, 0⟩ (by decide)⟩

/-- C9: with `keymouse` on and a visible cursor, one run of
`cursor_grab_system` performs exactly one change, leaving the cursor
hidden with grab mode `Locked`; a second run with the same toggle state
changes nothing. -/
theorem C9_cursor_grab_idempotent (g : CursorGrabMode) :
    cursor_grab_system true ⟨⟨true, g⟩⟩ =
        ⟨⟨false, CursorGrabMode.Locked⟩⟩ ∧
      cursor_grab_system true ⟨⟨false, CursorGrabMode.Locked⟩⟩ =
        ⟨⟨false, CursorGrabMode.Locked⟩⟩ :=
  ⟨rfl, rfl⟩

/-- C5: for an axis-bound source, an axis value of sign opposite to the
requested direction resolves to exactly `0`, while a matching sign
resolves to the raw axis value. -/
theorem C5_axis_sign_filter (g : Gamepad)
    (axes : Gamepad × GamepadAxisType → Option ℝ)
    (buttons : Gamepad × GamepadButtonType → Bool)
    (button_axes : Gamepad × GamepadButtonType → Option ℝ)
    (a : GamepadAxisType) (d v : ℝ) (hv : axes (g, a) = some v) :
    (v * d < 0 →
      input_value g axes buttons button_axes (.Axis a) d = 0) ∧
      (0 < v * d →
        input_value g axes buttons button_axes (.Axis a) d = v) := by
  simp only [input_value, hv]
  constructor
  · intro h
    rw [if_neg]
    rcases mul_neg_iff.mp h with ⟨hv1, hd1⟩ | ⟨hv1, hd1⟩
    · simp only [signum, if_neg (not_lt.mpr hv1.le), if_pos hd1]
      norm_num
    · simp only [signum, if_pos hv1, if_neg (not_lt.mpr hd1.le)]
      norm_num
  · intro h
    rw [if_pos]
    rcases mul_pos_iff.mp h with ⟨hv1, hd1⟩ | ⟨hv1, hd1⟩
    · simp only [signum, if_neg (not_lt.mpr hv1.le), if_neg (not_lt.mpr hd1.le)]
    · simp only [signum, if_pos hv1, if_pos hd1]

/-- Closed instance of `C5_axis_sign_filter`: an axis tilted to `1/2`
resolves to `0` against direction `-1` and to `1/2` for direction `1`. -/
theorem C5_axis_sign_filter_witness :
    ((fun _ => some (1 / 2 : ℝ)) ((0 : Gamepad), (0 : GamepadAxisType)) =
        some (1 / 2 : ℝ)) ∧
      ((1 / 2 : ℝ) * (-1) < 0 →
        input_value 0 (fun _ => some (1 / 2)) (fun _ => false)
          (fun _ => none) (.Axis 0) (-1) = 0) ∧
      (0 < (1 / 2 : ℝ) * (-1) →
        input_value 0 (fun _ => some (1 / 2)) (fun _ => false)
          (fun _ => none) (.Axis 0) (-1) = 1 / 2) :=
  ⟨rfl,
   (C5_axis_sign_filter 0 (fun _ => some (1 / 2)) (fun _ => false)
     (fun _ => none) 0 (-1) (1 / 2) rfl).1,
   (C5_axis_sign_filter 0 (fun _ => some (1 / 2)) (fun _ => false)
     (fun _ => none) 0 (-1) (1 / 2) rfl).2⟩

/-- C6: `input_value` is total and treats absence as zero: a missing
axis value, an unpressed (or absent) button, and a missing trigger value
all resolve to `0`, for every direction sign. -/
theorem C6_absence_is_zero (g : Gamepad)
    (axes : Gamepad × GamepadAxisType → Option ℝ)
    (buttons : Gamepad × GamepadButtonType → Bool)
    (button_axes : Gamepad × GamepadButtonType → Option ℝ)
    (d : ℝ) (a b c : ℕ) (ha : axes (g, a) = none)
    (hb : buttons (g, b) = false) (hc : button_axes (g, c) = none) :
    input_value g axes buttons button_axes (.Axis a) d = 0 ∧
      input_value g axes buttons button_axes (.Button b) d = 0 ∧
      input_value g axes buttons button_axes (.Trigger c) d = 0 := by
  simp [input_value, ha, hb, hc]

/-- Closed instance of `C6_absence_is_zero` with every device query
empty. -/
theorem C6_absence_is_zero_witness :
    ((fun _ => (none : Option ℝ)) ((0 : Gamepad), (0 : GamepadAxisType)) = none) ∧
      ((fun _ => false) ((0 : Gamepad), (0 : GamepadButtonType)) = false) ∧
      (input_value 0 (fun _ => none) (fun _ => false) (fun _ => none)
          (.Axis 0) (-1) = 0 ∧
        input_value 0 (fun _ => none) (fun _ => false) (fun _ => none)
          (.Button 0) (-1) = 0 ∧
        input_value 0 (fun _ => none) (fun _ => false) (fun _ => none)
          (.Trigger 0) (-1) = 0) :=
  ⟨rfl, rfl,
   C6_absence_is_zero 0 (fun _ => none) (fun _ => false) (fun _ => none)
     (-1) 0 0 0 rfl rfl rfl⟩

/-- C10: a present axis value `v` is routed to exactly one of the two
opposite direction channels: the contributions for directions `-1` and
`1` sum to exactly `v`. -/
theorem C10_axis_split_sums_to_value (g : Gamepad)
    (axes : Gamepad × GamepadAxisType → Option ℝ)
    (buttons : Gamepad × GamepadButtonType → Bool)
    (button_axes : Gamepad × GamepadButtonType → Option ℝ)
    (a : GamepadAxisType) (v : ℝ) (hv : axes (g, a) = some v) :
    input_value g axes buttons button_axes (.Axis a) (-1) +
        input_value g axes buttons button_axes (.Axis a) 1 = v := by
  have h1 : signum (1 : ℝ) = 1 := by norm_num [signum]
  have hm1 : signum (-1 : ℝ) = -1 := by norm_num [signum]
  simp only [input_value, hv, h1, hm1]
  rcases lt_trichotomy v 0 with h | h | h
  · rw [if_pos (by norm_num [signum, h]), if_neg (by norm_num [signum, h])]
    ring
  · subst h
    rw [if_neg (by norm_num [signum]), if_pos (by norm_num [signum])]
    ring
  · rw [if_neg (by norm_num [signum, not_lt.mpr h.le]),
      if_pos (by norm_num [signum, not_lt.mpr h.le])]
    ring

/-- Closed instance of `C10_axis_split_sums_to_value` at axis value
`-3/4`. -/
theorem C10_axis_split_sums_to_value_witness :
    ((fun _ => some (-3 / 4 : ℝ)) ((0 : Gamepad), (0 : GamepadAxisType)) =
        some (-3 / 4 : ℝ)) ∧
      input_value 0 (fun _ => some (-3 / 4)) (fun _ => false)
          (fun _ => none) (.Axis 0) (-1) +
        input_value 0 (fun _ => some (-3 / 4)) (fun _ => false)
          (fun _ => none) (.Axis 0) 1 = -3 / 4 :=
  ⟨rfl,
   C10_axis_split_sums_to_value 0 (fun _ => some (-3 / 4)) (fun _ => false)
     (fun _ => none) 0 (-3 / 4) rfl⟩

/-- C4 as stated is false: with zero elapsed time the intents are zero,
but the per-camera update still re-orthonormalizes the stored basis, so
a camera whose basis is not yet orthonormal (here `up` slanted towards
`fwd`) has its `up` changed even though all intent inputs vanish. -/
theorem C4_zero_delta_counterexample :
    camera_movement_system DebugCameraActive.default kb0 gb0 inpZeroDelta
      [camSkew] ≠ [camSkew] := by
  have hz : intents DebugCameraActive.default kb0 gb0 inpZeroDelta = (0, 0) :=
    intents_delta_zero _ _ _ _ rfl
  have hfix : orthonormalize camSkew.fwd camSkew.up =
      (⟨1, 0, 0⟩, ⟨0, 1, 0⟩) := by
    norm_num [orthonormalize, camSkew, Vec3.cross, Vec3.normalize, Vec3.dot,
      Real.sqrt_one, Prod.ext_iff, Vec3.ext_iff]
  have hup : (integrate DebugCameraActive.default 0 0 camSkew).up =
      ⟨0, 1, 0⟩ := by
    simp [integrate, hfix, invert, rotate_zero]
  have hlist : camera_movement_system DebugCameraActive.default kb0 gb0
      inpZeroDelta [camSkew] = [integrate DebugCameraActive.default 0 0 camSkew] := by
    simp only [camera_movement_system, hz]
    rw [if_neg (by simp [DebugCameraActive.default])]
    simp
  intro h
  rw [hlist] at h
  have hcam : integrate DebugCameraActive.default 0 0 camSkew = camSkew := by
    simpa using h
  have hx : (integrate DebugCameraActive.default 0 0 camSkew).up.x =
      camSkew.up.x := by rw [hcam]
  rw [hup] at hx
  norm_num [camSkew] at hx

/-- C4 (amended): with zero elapsed time, the accumulated translation
and rotation intents are both zero for every input combination; the
frame's per-camera update then leaves every camera's position and
speeds unchanged and only replaces its stored `fwd`/`up` by their
re-orthonormalization (so for an arbitrary, possibly non-orthonormal,
camera the basis correction is the only change made), and every camera
whose stored basis is already orthonormal is left entirely unchanged by
`camera_movement_system`. -/
theorem C4_zero_delta_amended (active : DebugCameraActive)
    (kb : KeyboardBindings) (gb : GamepadBindings) (inp : FrameInputs)
    (cam : DebugCamera) (cams : List DebugCamera) (h : inp.delta = 0)
    (hall : ∀ c ∈ cams, c.fwd.dot c.fwd = 1 ∧ c.up.dot c.up = 1 ∧
      c.fwd.dot c.up = 0) :
    intents active kb gb inp = (0, 0) ∧
      (integrate active (intents active kb gb inp).1
          (intents active kb gb inp).2 cam).position = cam.position ∧
      (integrate active (intents active kb gb inp).1
          (intents active kb gb inp).2 cam).fwd =
        (orthonormalize cam.fwd cam.up).1 ∧
      (integrate active (intents active kb gb inp).1
          (intents active kb gb inp).2 cam).up =
        (orthonormalize cam.fwd cam.up).2 ∧
      (integrate active (intents active kb gb inp).1
          (intents active kb gb inp).2 cam).speed_translate =
        cam.speed_translate ∧
      (integrate active (intents active kb gb inp).1
          (intents active kb gb inp).2 cam).speed_rotate =
        cam.speed_rotate ∧
      camera_movement_system active kb gb inp cams = cams := by
  have hz := intents_delta_zero active kb gb inp h
  have key : integrate active (intents active kb gb inp).1
      (intents active kb gb inp).2 cam =
      { fwd := (orthonormalize cam.fwd cam.up).1,
        up := (orthonormalize cam.fwd cam.up).2,
        position := cam.position,
        speed_translate := cam.speed_translate,
        speed_rotate := cam.speed_rotate } := by
    rw [hz]
    exact integrate_zero_intents active cam
  refine ⟨hz, by rw [key], by rw [key], by rw [key], by rw [key],
    by rw [key], ?_⟩
  unfold camera_movement_system
  split
  · rfl
  · simp only [hz]
    induction cams with
    | nil => rfl
    | cons c cs ih =>
        simp only [List.map_cons]
        obtain ⟨h1, h2, h3⟩ := hall c (by simp)
        rw [integrate_id_of_orthonormal active c h1 h2 h3,
          ih (fun d hd => hall d (by simp [hd]))]

/-- Closed instance of `C4_zero_delta_amended` at a concrete frame with
zero delta, the non-orthonormal camera `camSkew` for the per-camera
parts and a singleton list of the orthonormal camera `cam0` for the
no-op part. -/
theorem C4_zero_delta_amended_witness :
    inpZeroDelta.delta = 0 ∧
      (cam0.fwd.dot cam0.fwd = 1 ∧ cam0.up.dot cam0.up = 1 ∧
        cam0.fwd.dot cam0.up = 0) ∧
      (intents DebugCameraActive.default kb0 gb0 inpZeroDelta = (0, 0) ∧
        (integrate DebugCameraActive.default
            (intents DebugCameraActive.default kb0 gb0 inpZeroDelta).1
            (intents DebugCameraActive.default kb0 gb0 inpZeroDelta).2
            camSkew).position = camSkew.position ∧
        (integrate DebugCameraActive.default
            (intents DebugCameraActive.default kb0 gb0 inpZeroDelta).1
            (intents DebugCameraActive.default kb0 gb0 inpZeroDelta).2
            camSkew).fwd = (orthonormalize camSkew.fwd camSkew.up).1 ∧
        (integrate DebugCameraActive.default
            (intents DebugCameraActive.default kb0 gb0 inpZeroDelta).1
            (intents DebugCameraActive.default kb0 gb0 inpZeroDelta).2
            camSkew).up = (orthonormalize camSkew.fwd camSkew.up).2 ∧
        (integrate DebugCameraActive.default
            (intents DebugCameraActive.default kb0 gb0 inpZeroDelta).1
            (intents DebugCameraActive.default kb0 gb0 inpZeroDelta).2
            camSkew).speed_translate = camSkew.speed_translate ∧
        (integrate DebugCameraActive.default
            (intents DebugCameraActive.default kb0 gb0 inpZeroDelta).1
            (intents DebugCameraActive.default kb0 gb0 inpZeroDelta).2
            camSkew).speed_rotate = camSkew.speed_rotate ∧
        camera_movement_system DebugCameraActive.default kb0 gb0 inpZeroDelta
          [cam0] = [cam0]) :=
  ⟨rfl, by norm_num [cam0, Vec3.dot],
   C4_zero_delta_amended DebugCameraActive.default kb0 gb0 inpZeroDelta
     camSkew [cam0] rfl
     (by intro c hc; simp only [List.mem_singleton] at hc; subst hc
         norm_num [cam0, Vec3.dot])⟩

/-- C8 as stated is false: with the gamepad toggle on and an active
gamepad present, the accumulated rotation-x intent also receives the
keymouse mouse-motion contribution when that scheme is on, so it need
not equal the elapsed time times the negated yaw sum.  Here the yaw
contributions are zero (no axis data) but one mouse-motion event makes
rotation-x equal `-0.5` while the claimed value is `0`. -/
theorem C8_yaw_counterexample :
    ¬((intents DebugCameraActive.default kb0 gb0 inpMouseOnly).2.x =
      inpMouseOnly.delta *
        (-(input_value 0 inpMouseOnly.axes inpMouseOnly.buttons
            inpMouseOnly.button_axes gb0.yaw_left (-1)) -
          input_value 0 inpMouseOnly.axes inpMouseOnly.buttons
            inpMouseOnly.button_axes gb0.yaw_right 1)) := by
  norm_num [intents, inpMouseOnly, DebugCameraActive.default, kb0, gb0,
    input_value, signum, buttons_to_dir]

/-- C8 (amended): in a frame with an active gamepad, the gamepad toggle
on and the keymouse toggle off (so that no mouse motion is accumulated
onto the same channel), the x component of the accumulated rotation
intent is the elapsed time times `(-yaw_left - yaw_right)` — both yaw
contributions negated — while the z component of the accumulated
translation intent is the un-negated `left + right` sum. -/
theorem C8_yaw_negated_amended (active : DebugCameraActive)
    (kb : KeyboardBindings) (gb : GamepadBindings) (inp : FrameInputs)
    (g : Gamepad) (hg : active.gamepad = true)
    (hk : active.keymouse = false) (hag : inp.active_gamepad = some g) :
    (intents active kb gb inp).2.x =
      inp.delta *
        (-(input_value g inp.axes inp.buttons inp.button_axes gb.yaw_left (-1)) -
          input_value g inp.axes inp.buttons inp.button_axes gb.yaw_right 1) ∧
      (intents active kb gb inp).1.z =
        inp.delta *
          (input_value g inp.axes inp.buttons inp.button_axes gb.left (-1) +
            input_value g inp.axes inp.buttons inp.button_axes gb.right 1) := by
  refine ⟨?_, ?_⟩ <;> simp [intents, hg, hag, hk]

/-- Closed instance of `C8_yaw_negated_amended`: gamepad on, keymouse
off, active gamepad `0`, no axis data. -/
theorem C8_yaw_negated_amended_witness :
    (DebugCameraActive.mk false true false false).gamepad = true ∧
      (DebugCameraActive.mk false true false false).keymouse = false ∧
      inpMouseOnly.active_gamepad = some 0 ∧
      ((intents (DebugCameraActive.mk false true false false) kb0 gb0
          inpMouseOnly).2.x =
        inpMouseOnly.delta *
          (-(input_value 0 inpMouseOnly.axes inpMouseOnly.buttons
              inpMouseOnly.button_axes gb0.yaw_left (-1)) -
            input_value 0 inpMouseOnly.axes inpMouseOnly.buttons
              inpMouseOnly.button_axes gb0.yaw_right 1) ∧
        (intents (DebugCameraActive.mk false true false false) kb0 gb0
            inpMouseOnly).1.z =
          inpMouseOnly.delta *
            (input_value 0 inpMouseOnly.axes inpMouseOnly.buttons
                inpMouseOnly.button_axes gb0.left (-1) +
              input_value 0 inpMouseOnly.axes inpMouseOnly.buttons
                inpMouseOnly.button_axes gb0.right 1)) :=
  ⟨rfl, rfl, rfl,
   C8_yaw_negated_amended (DebugCameraActive.mk false true false false)
     kb0 gb0 inpMouseOnly 0 rfl rfl rfl⟩

end
